import Mathlib

/-!
# ParKaro booking core, shallowly embedded

This file embeds the decision core of the ParKaro parking-reservation
backend (`core/views.py`, `core/models.py`, and the two management
commands) and proves the spec's claims about it.

Modelling conventions:
* Python numeric values (`float` and `Decimal`) are modelled as exact
  rationals `ℚ`; Python's banker's rounding `round` is `pyRound`.
* A Python `datetime` is modelled by `DateTime`: its position on the
  timeline in seconds (`ts`, used by every comparison and subtraction),
  together with the weekday returned by `.weekday()` and the time of day
  in seconds returned by `.time()`.
* Database rows are lists of records; a Django filter is a `List.filter`
  / `List.any` / `List.find?` with the same condition. A Django filter
  `field=value` on a nullable column matches only `some value` (SQL
  `NULL` never compares equal), which is visible in the definitions.
* Each view function is embedded as a pure state transformer
  `St → St × Bool` returning the committed end state of the request and
  whether it succeeded; rendering, mail, notification logs and QR-image
  side effects are outside the model.  `create_booking`'s transient
  PENDING_PAYMENT save followed in the same request by the dummy-gateway
  payment and the CONFIRMED save is collapsed to the request's committed
  end state.  A request that raises an uncaught exception ends with the
  failure flag and exactly the rows committed before the exception
  (Django autocommit, no `transaction.atomic` anywhere in the views):
  `cancel_booking` raises TypeError at line 570 (`Decimal amount_paid *
  float`) before any write, and `extend_booking` raises TypeError at
  line 533 (`Decimal amount_expected += float`) after the Payment and
  BookingExtension inserts but before the booking-row save.
-/

namespace ParKaro

/-- Python's `round` on a rational: round half to even (banker's rounding). -/
def pyRound (q : ℚ) : ℤ :=
  let f := ⌊q⌋
  let r := q - (f : ℚ)
  if r < 1/2 then f
  else if 1/2 < r then f + 1
  else if f % 2 = 0 then f else f + 1

/-- Python's `round(x, 2)`: two-decimal banker's rounding. -/
def pyRound2 (q : ℚ) : ℚ := (pyRound (q * 100) : ℚ) / 100

/-- `Booking.status` (`core/models.py`). -/
inductive BookingStatus
  | pendingPayment
  | confirmed
  | cancelled
  | completed
  | noShow
deriving DecidableEq, Repr

/-- `Payment.status` (`core/models.py`). -/
inductive PaymentStatus
  | initiated
  | success
  | failed
  | refunded
  | partialRefund
deriving DecidableEq, Repr

/-- `Fine.status` (`core/models.py`). -/
inductive FineStatus
  | unpaid
  | paid
deriving DecidableEq, Repr

/-- A Python `datetime`: timeline position in seconds (`ts`), the value of
`.weekday()` (0 = Monday .. 6 = Sunday) and of `.time()` as seconds into
the day. -/
structure DateTime where
  ts : ℚ
  weekday : ℤ
  tod : ℚ
deriving DecidableEq, Repr

/-- `ParkingLocation` (`core/models.py`): the two base rates the core logic
reads. -/
structure ParkingLocation where
  base_rate_per_hour : ℚ
  base_rate_per_day : ℚ
deriving DecidableEq, Repr

/-- `DynamicPricingRule` (`core/models.py`): `location` and `day_of_week`
are nullable (`none` = the row the admin UI displays as "Global" / any
day). -/
structure DynamicPricingRule where
  location : Option ℕ
  day_of_week : Option ℤ
  start_time : ℚ
  end_time : ℚ
  multiplier : ℚ
deriving DecidableEq, Repr

/-- `CancellationPolicy` (`core/models.py`): `location = none` means the
policy applies globally. -/
structure CancellationPolicy where
  location : Option ℕ
  min_minutes_before_start : ℤ
  refund_percentage : ℚ
deriving DecidableEq, Repr

/-- A `Booking` row with the fields the core logic reads and writes. -/
structure Booking where
  id : ℕ
  locId : ℕ
  slot : ℕ
  status : BookingStatus
  entry_datetime_expected : ℚ
  exit_datetime_expected : ℚ
  actual_entry_datetime : Option ℚ
  actual_exit_datetime : Option ℚ
  duration_hours_booked : ℚ
  amount_expected : ℚ
  amount_paid : ℚ
  reservation_expires_at : Option ℚ
deriving DecidableEq, Repr

/-- A `Payment` row (append-only ledger entry). -/
structure Payment where
  bookingId : ℕ
  amount : ℚ
  status : PaymentStatus
  payment_method : String
deriving DecidableEq, Repr

/-- A `Fine` row. -/
structure Fine where
  bookingId : ℕ
  amount : ℚ
  status : FineStatus
deriving DecidableEq, Repr

/-- The database state the core operations read and write.  `nextId` is the
booking table's autoincrement counter. -/
structure St where
  bookings : List Booking
  payments : List Payment
  fines : List Fine
  nextId : ℕ
deriving DecidableEq, Repr

/-- The empty database. -/
def initSt : St := ⟨[], [], [], 0⟩

/-- Location table: rates of the location with a given id. -/
def Env : Type := ℕ → ParkingLocation

/-- Pricing-rule lookup of `create_booking` (`core/views.py` lines
172-177): `DynamicPricingRule.objects.filter(location=location,
day_of_week=entry.weekday())`, then `multiplier = max(multiplier,
rule.multiplier)` for every rule whose `[start_time, end_time]` window
contains `entry.time()`, starting from `1.0`.  The Django `field=value`
filters match only rows whose nullable `location` / `day_of_week` equal
the given values; `NULL` rows never match. -/
def effectiveMultiplier (rules : List DynamicPricingRule) (locId : ℕ)
    (entry : DateTime) : ℚ :=
  rules.foldl
    (fun m r =>
      if r.location = some locId ∧ r.day_of_week = some entry.weekday ∧
          r.start_time ≤ entry.tod ∧ entry.tod ≤ r.end_time
      then max m r.multiplier else m) 1

/-- Modelled from the spec (§4.2), for comparison with
`effectiveMultiplier`: the multiplier also matches rules whose
`location` is global (`none`) and rules whose `day_of_week` is null
(any day). -/
def spec_effectiveMultiplier (rules : List DynamicPricingRule) (locId : ℕ)
    (entry : DateTime) : ℚ :=
  rules.foldl
    (fun m r =>
      if (r.location = some locId ∨ r.location = none) ∧
          (r.day_of_week = some entry.weekday ∨ r.day_of_week = none) ∧
          r.start_time ≤ entry.tod ∧ entry.tod ≤ r.end_time
      then max m r.multiplier else m) 1

/-- Amount computation of `create_booking` (`core/views.py` lines
179-185).  `days = (duration_hours_booked / 24) or 1` is `1` only when
the quotient is exactly `0` (Python falsiness), then the amount is
`base_rate_per_day * round(days)`; under 8 hours the amount is
`duration * base_rate_per_hour * multiplier`. -/
def bookingAmount (loc : ParkingLocation) (duration_hours_booked : ℚ)
    (multiplier : ℚ) : ℚ :=
  let effective_rate := loc.base_rate_per_hour * multiplier
  if 8 ≤ duration_hours_booked then
    let days : ℚ :=
      if duration_hours_booked / 24 = 0 then 1 else duration_hours_booked / 24
    loc.base_rate_per_day * (pyRound days : ℚ)
  else duration_hours_booked * effective_rate

/-- Modelled from the spec (§4.2), for comparison with the daily branch of
`bookingAmount`: `amount = base_rate_per_day * round(duration_hours/24)`
with a floor of 1 day. -/
def spec_dailyAmount (loc : ParkingLocation) (duration_hours : ℚ) : ℚ :=
  loc.base_rate_per_day * (max 1 (pyRound (duration_hours / 24)) : ℚ)

/-- Scope condition of the cancellation-policy query
(`core/views.py` line 562): `Q(location=booking.location) |
Q(location__isnull=True)`. -/
def scopeMatches (p : CancellationPolicy) (locId : ℕ) : Prop :=
  p.location = some locId ∨ p.location = none

instance (p : CancellationPolicy) (locId : ℕ) : Decidable (scopeMatches p locId) := by
  unfold scopeMatches; infer_instance

/-- The policy rows the cancellation query keeps (`core/views.py` lines
560-564): scope matches and `min_minutes_before_start <= minutes_before`. -/
def matchingPolicies (ps : List CancellationPolicy) (locId : ℕ)
    (minutes : ℚ) : List CancellationPolicy :=
  ps.filter (fun p =>
    decide (scopeMatches p locId ∧ (p.min_minutes_before_start : ℚ) ≤ minutes))

/-- The row `order_by("-min_minutes_before_start").first()` returns
(`core/views.py` lines 565-567): the first row with the maximal
threshold. -/
def bestPolicy : List CancellationPolicy → Option CancellationPolicy
  | [] => none
  | p :: ps =>
    match bestPolicy ps with
    | none => some p
    | some q =>
      if p.min_minutes_before_start < q.min_minutes_before_start then some q
      else some p

/-- Refund percentage the cancellation view applies (`core/views.py` line
569): the selected policy's `refund_percentage`, `0.0` when no policy
matches. -/
def refundPercentage (ps : List CancellationPolicy) (locId : ℕ)
    (minutes : ℚ) : ℚ :=
  match bestPolicy (matchingPolicies ps locId minutes) with
  | some p => p.refund_percentage
  | none => 0

/-- The core operations, each carrying its request parameters.
`expirySweep` is `cleanup_reservations`, `overtimeSweep` the fine pass of
`process_parking_automation`. -/
inductive Op
  | create (locId slotId : ℕ) (entry exitDT : DateTime)
      (rules : List DynamicPricingRule) (now : ℚ)
  | extend (bookingId : ℕ) (new_exit : DateTime)
      (rules : List DynamicPricingRule)
  | cancel (bookingId : ℕ) (policies : List CancellationPolicy) (now : ℚ)
  | scan (bookingId : ℕ) (now : ℚ)
  | expirySweep (now : ℚ)
  | overtimeSweep (now : ℚ)

/-- Whether an operation is the staff entry/exit QR scan. -/
def Op.isScan : Op → Bool
  | .scan _ _ => true
  | _ => false

/-- `create_booking` (`core/views.py` lines 137-239).  The form's `clean`
rejects `exit <= entry`; the view rejects when another CONFIRMED booking
on the slot has `entry_datetime_expected < new exit` and
`exit_datetime_expected > new entry`; otherwise the request commits a
CONFIRMED booking paid in full by a SUCCESS dummy-gateway payment, with
`reservation_expires_at` cleared. -/
def applyCreate (env : Env) (locId slotId : ℕ) (entry exitDT : DateTime)
    (rules : List DynamicPricingRule) (_now : ℚ) (st : St) : St × Bool :=
  if exitDT.ts ≤ entry.ts then (st, false)
  else if st.bookings.any (fun b =>
      decide (b.slot = slotId ∧ b.status = .confirmed ∧
        b.entry_datetime_expected < exitDT.ts ∧
        entry.ts < b.exit_datetime_expected)) then (st, false)
  else
    let duration := pyRound2 ((exitDT.ts - entry.ts) / 3600)
    let mult := effectiveMultiplier rules locId entry
    let amount := bookingAmount (env locId) duration mult
    let b : Booking :=
      { id := st.nextId, locId := locId, slot := slotId, status := .confirmed,
        entry_datetime_expected := entry.ts, exit_datetime_expected := exitDT.ts,
        actual_entry_datetime := none, actual_exit_datetime := none,
        duration_hours_booked := duration, amount_expected := amount,
        amount_paid := amount, reservation_expires_at := none }
    ({ st with
        bookings := b :: st.bookings,
        payments := ⟨st.nextId, amount, .success, "DUMMY_GATEWAY"⟩ :: st.payments,
        nextId := st.nextId + 1 }, true)

/-- `extend_booking` (`core/views.py` lines 476-538).  The booking is
fetched with `status=CONFIRMED`; the view rejects unless
`new_exit > exit_datetime_expected` and no *other* CONFIRMED booking on
the slot has `entry < new_exit` and `exit > current exit`.  Otherwise it
commits a SUCCESS Payment for the extra amount (extension pricing keyed
on the new exit, hourly only) and a BookingExtension row (not modelled),
and then line 533 — `booking.amount_expected += extra_amount` — adds the
float `extra_amount` to the Decimal field and raises TypeError: the
booking-row save at line 535 never runs, so the request fails with only
the payment persisted and the booking row unchanged. -/
def applyExtend (env : Env) (bid : ℕ) (new_exit : DateTime)
    (rules : List DynamicPricingRule) (st : St) : St × Bool :=
  match st.bookings.find? (fun c => decide (c.id = bid ∧ c.status = .confirmed)) with
  | none => (st, false)
  | some b =>
    if new_exit.ts ≤ b.exit_datetime_expected then (st, false)
    else if st.bookings.any (fun c =>
        decide (¬ c.id = b.id ∧ c.slot = b.slot ∧ c.status = .confirmed ∧
          c.entry_datetime_expected < new_exit.ts ∧
          b.exit_datetime_expected < c.exit_datetime_expected)) then (st, false)
    else
      let extra_hours := pyRound2 ((new_exit.ts - b.exit_datetime_expected) / 3600)
      let mult := effectiveMultiplier rules b.locId new_exit
      let extra_amount := extra_hours * ((env b.locId).base_rate_per_hour * mult)
      ({ st with
          payments := ⟨bid, extra_amount, .success, "DUMMY_GATEWAY"⟩ :: st.payments },
        false)

/-- `cancel_booking` (`core/views.py` lines 544-606).  The booking is
fetched with `status=CONFIRMED`; the view rejects when
`entry_datetime_expected <= now` (line 553, before any write).
Otherwise lines 557-569 resolve the refund percentage, and line 570 —
`refundable_amount = booking.amount_paid * (refund_percentage / 100.0)` —
multiplies the Decimal `amount_paid` by a float and raises TypeError
before `request.method` is even consulted: nothing is ever written, so
the CANCELLED transition, the `amount_paid` decrement and the REFUNDED
Payment of lines 572-586 are unreachable and every cancel request on a
future CONFIRMED booking fails with the state unchanged. -/
def applyCancel (bid : ℕ) (policies : List CancellationPolicy) (now : ℚ)
    (st : St) : St × Bool :=
  match st.bookings.find? (fun c => decide (c.id = bid ∧ c.status = .confirmed)) with
  | none => (st, false)
  | some b =>
    if b.entry_datetime_expected ≤ now then (st, false)
    else
      let minutes := (b.entry_datetime_expected - now) / 60
      let _pct := refundPercentage policies b.locId minutes
      (st, false)

/-- Row update of the entry branch of `staff_scan_qr`
(`booking.save(update_fields=["actual_entry_datetime"])`). -/
def scanEntryUpdate (bid : ℕ) (now : ℚ) (c : Booking) : Booking :=
  if c.id = bid then { c with actual_entry_datetime := some now } else c

/-- Row update of the exit branch of `staff_scan_qr`
(`booking.save(update_fields=["actual_exit_datetime", "status"])`). -/
def scanExitUpdate (bid : ℕ) (now : ℚ) (c : Booking) : Booking :=
  if c.id = bid then
    { c with actual_exit_datetime := some now, status := .completed }
  else c

/-- `staff_scan_qr` (`core/views.py` lines 427-470).  The booking is
fetched by id with no status filter; the first scan records the entry,
the second records the exit and sets the status to COMPLETED, further
scans change nothing. -/
def applyScan (bid : ℕ) (now : ℚ) (st : St) : St × Bool :=
  match st.bookings.find? (fun c => decide (c.id = bid)) with
  | none => (st, false)
  | some b =>
    if b.actual_entry_datetime = none then
      ({ st with bookings := st.bookings.map (scanEntryUpdate bid now) }, true)
    else if b.actual_exit_datetime = none then
      ({ st with bookings := st.bookings.map (scanExitUpdate bid now) }, true)
    else (st, true)

/-- The filter `reservation_expires_at__lt=now`: true when the nullable
expiry is set and lies before `now`. -/
def expiredBefore (r : Option ℚ) (now : ℚ) : Bool :=
  match r with
  | some t => decide (t < now)
  | none => false

/-- Row update of the expiry sweep: a PENDING_PAYMENT booking whose
reservation expiry lies before `now` is set to CANCELLED. -/
def expireUpdate (now : ℚ) (b : Booking) : Booking :=
  if b.status = .pendingPayment ∧ expiredBefore b.reservation_expires_at now then
    { b with status := .cancelled }
  else b

/-- `cleanup_reservations` (`core/management/commands/cleanup_reservations.py`):
every PENDING_PAYMENT booking with `reservation_expires_at < now` is set
to CANCELLED. -/
def applyExpirySweep (now : ℚ) (st : St) : St × Bool :=
  ({ st with bookings := st.bookings.map (expireUpdate now) }, true)

/-- The flat overtime fine `process_parking_automation` creates: amount
`booking.location.base_rate_per_hour`, status UNPAID. -/
def mkOvertimeFine (env : Env) (b : Booking) : Fine :=
  ⟨b.id, (env b.locId).base_rate_per_hour, .unpaid⟩

/-- Whether some fine row of the booking is UNPAID
(`booking.fines.filter(status=UNPAID).exists()`). -/
def hasUnpaidFine (fines : List Fine) (bid : ℕ) : Bool :=
  fines.any (fun f => decide (f.bookingId = bid ∧ f.status = .unpaid))

/-- The fine-creation loop of `process_parking_automation`
(`core/management/commands/process_parking_automation.py` lines 49-67):
for each CONFIRMED booking past its expected exit, create one flat
UNPAID fine unless the booking already has an UNPAID fine.  The
existence check runs against the fine table as already extended by the
same pass. -/
def overtimeFold (env : Env) (now : ℚ) : List Booking → List Fine → List Fine
  | [], fines => fines
  | b :: bs, fines =>
    overtimeFold env now bs
      (if b.status = .confirmed ∧ b.exit_datetime_expected < now then
        (if hasUnpaidFine fines b.id then fines else mkOvertimeFine env b :: fines)
      else fines)

/-- The overtime pass of `process_parking_automation`: bookings and
payments are untouched, the fine table grows by `overtimeFold`.  The
reminder pass only sends mail and notification-log rows, outside the
model. -/
def applyOvertimeSweep (env : Env) (now : ℚ) (st : St) : St × Bool :=
  ({ st with fines := overtimeFold env now st.bookings st.fines }, true)

/-- One core operation as a transformer of the database state, returning
the committed state and whether the request succeeded. -/
def applyOp (env : Env) : Op → St → St × Bool
  | .create locId slotId entry exitDT rules now, st =>
    applyCreate env locId slotId entry exitDT rules now st
  | .extend bid new_exit rules, st => applyExtend env bid new_exit rules st
  | .cancel bid policies now, st => applyCancel bid policies now st
  | .scan bid now, st => applyScan bid now st
  | .expirySweep now, st => applyExpirySweep now st
  | .overtimeSweep now, st => applyOvertimeSweep env now st

/-- Run a sequence of operations from a state. -/
def runOps (env : Env) : List Op → St → St
  | [], st => st
  | op :: ops, st => runOps env ops (applyOp env op st).1

/-- A concrete location table: every location has hourly rate 100 and
daily rate 600 (the spec's scenario rates). -/
def rateEnv : Env := fun _ => ⟨100, 600⟩

/-- Every branch of `cancel_booking` ends without a write: the 404 on a
missing/non-CONFIRMED booking, the past-start guard, and the line-570
TypeError all leave the database unchanged and the request failed. -/
theorem applyCancel_eq (bid : ℕ) (ps : List CancellationPolicy) (now : ℚ)
    (st : St) : applyCancel bid ps now st = (st, false) := by
  unfold applyCancel
  cases st.bookings.find? (fun c => decide (c.id = bid ∧ c.status = .confirmed)) with
  | none => rfl
  | some b =>
    dsimp only
    split
    · rfl
    · rfl

/-! ## C2: daily billing and the one-day floor -/

/-- C2: the claim says a booking of `duration_hours >= 8` is charged
`daily_rate * round(duration_hours/24)` floored at one day, so 08:00-18:00
(10 h) at daily rate 600 costs 600.00.  The code computes
`days = (duration/24) or 1` *before* rounding, so the floor never fires
for durations ≥ 8 and `round(10/24) = 0`: the booking is charged 0.  The
first conjunct evaluates the code's amount, the second the spec's
formula, the third runs the full create operation on the 08:00-18:00
request. -/
theorem daily_billing_charges_zero_for_ten_hours :
    bookingAmount ⟨100, 600⟩ 10 1 = 0 ∧
    spec_dailyAmount ⟨100, 600⟩ 10 = 600 ∧
    ((applyOp rateEnv (.create 1 1 ⟨28800, 0, 28800⟩ ⟨64800, 0, 64800⟩ [] 0)
        initSt).1.bookings.map Booking.amount_expected) = [0] := by
  refine ⟨?_, ?_, ?_⟩
  · norm_num [bookingAmount, pyRound]
  · norm_num [spec_dailyAmount, pyRound]
  · norm_num [applyOp, applyCreate, initSt, rateEnv, bookingAmount, pyRound,
      pyRound2, effectiveMultiplier]

/-! ## C3: global and any-day pricing rules -/

/-- C3: the claim says the multiplier is raised by matching rules whose
location is global (`none`) or whose `day_of_week` is null (any day).
The code's query `filter(location=location, day_of_week=entry.weekday())`
never matches such rows, so they leave the multiplier at 1; the
spec-modelled lookup yields 3/2 on the same input (entry on a Monday at
10:00, rule window 09:00-12:00, multiplier 1.5). -/
theorem global_and_any_day_pricing_rules_never_match :
    effectiveMultiplier [⟨none, some 0, 32400, 43200, 3/2⟩] 1 ⟨0, 0, 36000⟩ = 1 ∧
    effectiveMultiplier [⟨some 1, none, 32400, 43200, 3/2⟩] 1 ⟨0, 0, 36000⟩ = 1 ∧
    spec_effectiveMultiplier [⟨none, some 0, 32400, 43200, 3/2⟩] 1 ⟨0, 0, 36000⟩ = 3/2 ∧
    spec_effectiveMultiplier [⟨some 1, none, 32400, 43200, 3/2⟩] 1 ⟨0, 0, 36000⟩ = 3/2 := by
  refine ⟨?_, ?_, ?_, ?_⟩ <;>
    norm_num [effectiveMultiplier, spec_effectiveMultiplier, max_def] <;>
    decide

/-! ## Refund-policy selection lemmas -/

theorem mem_matchingPolicies {ps : List CancellationPolicy} {locId : ℕ}
    {minutes : ℚ} {p : CancellationPolicy} :
    p ∈ matchingPolicies ps locId minutes ↔
      p ∈ ps ∧ scopeMatches p locId ∧ (p.min_minutes_before_start : ℚ) ≤ minutes := by
  simp [matchingPolicies, List.mem_filter, and_assoc]

theorem bestPolicy_eq_none {ps : List CancellationPolicy} :
    bestPolicy ps = none ↔ ps = [] := by
  cases ps with
  | nil => simp [bestPolicy]
  | cons q qs =>
    constructor
    · intro h
      rw [bestPolicy] at h
      cases hq : bestPolicy qs with
      | none => simp only [hq] at h; cases h
      | some r => simp only [hq] at h; split at h <;> cases h
    · intro h
      cases h

theorem bestPolicy_mem {ps : List CancellationPolicy} {p : CancellationPolicy}
    (h : bestPolicy ps = some p) : p ∈ ps := by
  induction ps with
  | nil => simp [bestPolicy] at h
  | cons q qs ih =>
    rw [bestPolicy] at h
    cases hq : bestPolicy qs with
    | none => simp only [hq] at h; cases h; exact List.mem_cons_self _ _
    | some r =>
      simp only [hq] at h
      by_cases hlt : q.min_minutes_before_start < r.min_minutes_before_start
      · rw [if_pos hlt] at h; cases h; exact List.mem_cons_of_mem _ (ih hq)
      · rw [if_neg hlt] at h; cases h; exact List.mem_cons_self _ _

theorem bestPolicy_le {ps : List CancellationPolicy} {p : CancellationPolicy}
    (h : bestPolicy ps = some p) :
    ∀ q ∈ ps, q.min_minutes_before_start ≤ p.min_minutes_before_start := by
  revert h
  induction ps generalizing p with
  | nil => intro h; simp [bestPolicy] at h
  | cons q qs ih =>
    intro h
    rw [bestPolicy] at h
    cases hq : bestPolicy qs with
    | none =>
      simp only [hq] at h
      cases h
      intro q' hq'
      rcases List.mem_cons.mp hq' with rfl | hmem
      · exact le_refl _
      · rw [bestPolicy_eq_none.mp hq] at hmem
        cases hmem
    | some r =>
      simp only [hq] at h
      intro q' hq'
      by_cases hlt : q.min_minutes_before_start < r.min_minutes_before_start
      · rw [if_pos hlt] at h
        cases h
        rcases List.mem_cons.mp hq' with rfl | hmem
        · exact le_of_lt hlt
        · exact ih hq q' hmem
      · rw [if_neg hlt] at h
        cases h
        rcases List.mem_cons.mp hq' with rfl | hmem
        · exact le_refl _
        · exact le_trans (ih hq q' hmem) (not_lt.mp hlt)

/-! ## C4: cancellation-policy selection -/

/-- C4: the refund percentage applied is that of the policy with the
largest threshold among policies whose scope is this location or global
and whose threshold is at most the minutes before start — 0 when none
matches; with a global (60 min, 50 %) and a location (30 min, 20 %)
policy, cancelling 45 minutes before start resolves to 20 %. -/
theorem cancellation_refund_picks_max_threshold :
    (∀ (ps : List CancellationPolicy) (locId : ℕ) (minutes : ℚ),
      (∃ p ∈ ps, scopeMatches p locId ∧ (p.min_minutes_before_start : ℚ) ≤ minutes ∧
        (∀ q ∈ ps, scopeMatches q locId → (q.min_minutes_before_start : ℚ) ≤ minutes →
          q.min_minutes_before_start ≤ p.min_minutes_before_start) ∧
        refundPercentage ps locId minutes = p.refund_percentage) ∨
      ((∀ p ∈ ps, scopeMatches p locId → ¬ (p.min_minutes_before_start : ℚ) ≤ minutes) ∧
        refundPercentage ps locId minutes = 0)) ∧
    refundPercentage [⟨none, 60, 50⟩, ⟨some 1, 30, 20⟩] 1 45 = 20 := by
  constructor
  · intro ps locId minutes
    rcases hbp : bestPolicy (matchingPolicies ps locId minutes) with _ | p
    · right
      have hnil := bestPolicy_eq_none.mp hbp
      constructor
      · intro p hp hs hle
        have hmem : p ∈ matchingPolicies ps locId minutes :=
          mem_matchingPolicies.mpr ⟨hp, hs, hle⟩
        rw [hnil] at hmem
        cases hmem
      · simp only [refundPercentage, hbp]
    · left
      have hpm := bestPolicy_mem hbp
      rcases mem_matchingPolicies.mp hpm with ⟨hps, hs, hle⟩
      refine ⟨p, hps, hs, hle, ?_, ?_⟩
      · intro q hq hqs hqle
        exact bestPolicy_le hbp q (mem_matchingPolicies.mpr ⟨hq, hqs, hqle⟩)
      · simp only [refundPercentage, hbp]
  · norm_num [refundPercentage, matchingPolicies, bestPolicy, scopeMatches,
      List.filter, Option.some_ne_none]

/-! ## C6: refund monotonicity -/

/-- C6 counterexample: with policies (threshold 0, refund 50 %) and
(threshold 60, refund 20 %), cancelling 90 minutes before start refunds
20 % while cancelling 30 minutes before start refunds 50 %: the resolved
percentage is not non-increasing as the minutes decrease. -/
theorem refund_monotonicity_cex :
    (30 : ℚ) ≤ 90 ∧
    ¬ (refundPercentage [⟨none, 0, 50⟩, ⟨none, 60, 20⟩] 1 30 ≤
        refundPercentage [⟨none, 0, 50⟩, ⟨none, 60, 20⟩] 1 90) := by
  constructor
  · norm_num
  · norm_num [refundPercentage, matchingPolicies, bestPolicy, scopeMatches,
      List.filter]

/-- C6 (amended): for a fixed policy set whose refund percentages are
non-negative and non-decreasing in the threshold (over the policies in
scope), the resolved percentage is monotone: fewer minutes before start
never yield a larger refund. -/
theorem refund_monotone_for_monotone_policies
    (ps : List CancellationPolicy) (locId : ℕ) (m1 m2 : ℚ)
    (hmono : ∀ p ∈ ps, ∀ q ∈ ps, scopeMatches p locId → scopeMatches q locId →
      p.min_minutes_before_start ≤ q.min_minutes_before_start →
      p.refund_percentage ≤ q.refund_percentage)
    (hnn : ∀ p ∈ ps, 0 ≤ p.refund_percentage)
    (hm : m2 ≤ m1) :
    refundPercentage ps locId m2 ≤ refundPercentage ps locId m1 := by
  rcases h2 : bestPolicy (matchingPolicies ps locId m2) with _ | p2
  · simp only [refundPercentage, h2]
    rcases h1 : bestPolicy (matchingPolicies ps locId m1) with _ | p1
    · simp
    · have hp1 := mem_matchingPolicies.mp (bestPolicy_mem h1)
      simp only [h1]
      exact hnn p1 hp1.1
  · simp only [refundPercentage, h2]
    have hp2 := mem_matchingPolicies.mp (bestPolicy_mem h2)
    have hp2' : p2 ∈ matchingPolicies ps locId m1 :=
      mem_matchingPolicies.mpr ⟨hp2.1, hp2.2.1, le_trans hp2.2.2 hm⟩
    rcases h1 : bestPolicy (matchingPolicies ps locId m1) with _ | p1
    · rw [bestPolicy_eq_none.mp h1] at hp2'
      cases hp2'
    · simp only [h1]
      have hp1 := mem_matchingPolicies.mp (bestPolicy_mem h1)
      exact hmono p2 hp2.1 p1 hp1.1 hp2.2.1 hp1.2.1 (bestPolicy_le h1 p2 hp2')

/-- Witness for the amended C6 theorem at a concrete monotone policy set:
(threshold 0, 20 %) and (threshold 60, 50 %), location 1, minutes 30
versus 90. -/
theorem refund_monotone_witness :
    refundPercentage [⟨none, 0, 20⟩, ⟨none, 60, 50⟩] 1 30 ≤
      refundPercentage [⟨none, 0, 20⟩, ⟨none, 60, 50⟩] 1 90 := by
  refine refund_monotone_for_monotone_policies _ 1 90 30 ?_ ?_ (by norm_num)
  · intro p hp q hq hsp hsq hle
    fin_cases hp <;> fin_cases hq <;> norm_num at hle ⊢
  · intro p hp
    fin_cases hp <;> norm_num

/-! ## The no-double-booking invariant (C1) -/

/-- Two booking rows do not double-book a slot: when both are CONFIRMED
on the same slot, their half-open expected windows are disjoint. -/
def windowsDisjoint (a b : Booking) : Prop :=
  a.status = .confirmed → b.status = .confirmed → a.slot = b.slot →
    a.exit_datetime_expected ≤ b.entry_datetime_expected ∨
    b.exit_datetime_expected ≤ a.entry_datetime_expected

theorem windowsDisjoint_symm : Symmetric windowsDisjoint := by
  intro a b hab h1 h2 h3
  rcases hab h2 h1 h3.symm with h | h
  · exact Or.inr h
  · exact Or.inl h

/-- Database invariant maintained by every core operation: booking ids
are unique and below the autoincrement counter, every expected window is
non-empty, and the CONFIRMED bookings of each slot have pairwise
disjoint windows. -/
structure Inv (st : St) : Prop where
  nodup : (st.bookings.map Booking.id).Nodup
  fresh : ∀ b ∈ st.bookings, b.id < st.nextId
  ordered : ∀ b ∈ st.bookings, b.entry_datetime_expected < b.exit_datetime_expected
  disjoint : st.bookings.Pairwise windowsDisjoint

theorem inv_initSt : Inv initSt := by
  refine ⟨?_, ?_, ?_, ?_⟩ <;> simp [initSt]

theorem eq_of_mem_of_id_eq {l : List Booking}
    (hnd : (l.map Booking.id).Nodup) {a b : Booking}
    (ha : a ∈ l) (hb : b ∈ l) (h : a.id = b.id) : a = b := by
  induction l with
  | nil => cases ha
  | cons x xs ih =>
    rw [List.map_cons, List.nodup_cons] at hnd
    rcases List.mem_cons.mp ha with rfl | ha'
    · rcases List.mem_cons.mp hb with rfl | hb'
      · rfl
      · exfalso
        apply hnd.1
        rw [h]
        exact List.mem_map_of_mem Booking.id hb'
    · rcases List.mem_cons.mp hb with rfl | hb'
      · exfalso
        apply hnd.1
        rw [← h]
        exact List.mem_map_of_mem Booking.id ha'
      · exact ih hnd.2 ha' hb'

theorem map_bookings_id (f : Booking → Booking) (hid : ∀ b, (f b).id = b.id)
    (l : List Booking) : (l.map f).map Booking.id = l.map Booking.id := by
  rw [List.map_map]
  exact List.map_congr_left (fun b _ => hid b)

/-- Generic invariant preservation: replacing the booking table by a
per-row update that keeps id, slot and the expected window, and never
turns a row CONFIRMED, preserves the invariant. -/
theorem inv_of_map (f : Booking → Booking) {st st' : St} (h : Inv st)
    (hb : st'.bookings = st.bookings.map f) (hn : st'.nextId = st.nextId)
    (hid : ∀ b, (f b).id = b.id)
    (hentry : ∀ b, (f b).entry_datetime_expected = b.entry_datetime_expected)
    (hexit : ∀ b, (f b).exit_datetime_expected = b.exit_datetime_expected)
    (hslot : ∀ b, (f b).slot = b.slot)
    (hstat : ∀ b, (f b).status = .confirmed → b.status = .confirmed) :
    Inv st' := by
  refine ⟨?_, ?_, ?_, ?_⟩
  · rw [hb, map_bookings_id f hid]
    exact h.nodup
  · intro c hc
    rw [hb] at hc
    rcases List.mem_map.mp hc with ⟨b, hbm, rfl⟩
    rw [hid, hn]
    exact h.fresh b hbm
  · intro c hc
    rw [hb] at hc
    rcases List.mem_map.mp hc with ⟨b, hbm, rfl⟩
    rw [hentry, hexit]
    exact h.ordered b hbm
  · rw [hb, List.pairwise_map]
    apply h.disjoint.imp
    intro a b hab h1 h2 h3
    rw [hexit a, hentry b, hexit b, hentry a]
    rw [hslot a, hslot b] at h3
    exact hab (hstat a h1) (hstat b h2) h3

theorem inv_applyCreate (env : Env) (locId slotId : ℕ) (entry exitDT : DateTime)
    (rules : List DynamicPricingRule) (now : ℚ) {st : St} (h : Inv st) :
    Inv (applyCreate env locId slotId entry exitDT rules now st).1 := by
  unfold applyCreate
  split
  · exact h
  · rename_i hval
    split
    · exact h
    · rename_i hconf
      have hval' : entry.ts < exitDT.ts := not_le.mp hval
      have hnoc : ∀ c ∈ st.bookings,
          ¬ (c.slot = slotId ∧ c.status = .confirmed ∧
            c.entry_datetime_expected < exitDT.ts ∧
            entry.ts < c.exit_datetime_expected) := by
        intro c hc hcontra
        exact hconf (List.any_eq_true.mpr ⟨c, hc, decide_eq_true hcontra⟩)
      dsimp only
      refine ⟨?_, ?_, ?_, ?_⟩
      · simp only [List.map_cons, List.nodup_cons]
        constructor
        · intro hmem
          rcases List.mem_map.mp hmem with ⟨c, hc, hcid⟩
          exact absurd hcid (Nat.ne_of_lt (h.fresh c hc))
        · exact h.nodup
      · intro c hc
        rcases List.mem_cons.mp hc with rfl | hc'
        · exact Nat.lt_succ_self _
        · exact Nat.lt_succ_of_lt (h.fresh c hc')
      · intro c hc
        rcases List.mem_cons.mp hc with rfl | hc'
        · exact hval'
        · exact h.ordered c hc'
      · rw [List.pairwise_cons]
        refine ⟨?_, h.disjoint⟩
        intro c hc h1 h2 h3
        have h4 : ¬ (c.entry_datetime_expected < exitDT.ts ∧
            entry.ts < c.exit_datetime_expected) := by
          intro hcontra
          exact hnoc c hc ⟨h3.symm, h2, hcontra.1, hcontra.2⟩
        rcases not_and_or.mp h4 with h5 | h5
        · exact Or.inl (not_lt.mp h5)
        · exact Or.inr (not_lt.mp h5)

theorem inv_applyExtend (env : Env) (bid : ℕ) (new_exit : DateTime)
    (rules : List DynamicPricingRule) {st : St} (h : Inv st) :
    Inv (applyExtend env bid new_exit rules st).1 := by
  unfold applyExtend
  cases hfind : st.bookings.find?
      (fun c => decide (c.id = bid ∧ c.status = .confirmed)) with
  | none => exact h
  | some b =>
    dsimp only
    split
    · exact h
    · split
      · exact h
      · exact ⟨h.nodup, h.fresh, h.ordered, h.disjoint⟩

theorem inv_applyCancel (bid : ℕ) (ps : List CancellationPolicy) (now : ℚ)
    {st : St} (h : Inv st) : Inv (applyCancel bid ps now st).1 := by
  rw [applyCancel_eq]
  exact h

theorem inv_applyScan (bid : ℕ) (now : ℚ) {st : St} (h : Inv st) :
    Inv (applyScan bid now st).1 := by
  unfold applyScan
  cases hfind : st.bookings.find? (fun c => decide (c.id = bid)) with
  | none => exact h
  | some b =>
    dsimp only
    split
    · refine inv_of_map _ h rfl rfl ?_ ?_ ?_ ?_ ?_ <;> intro c
      · unfold scanEntryUpdate; split <;> rfl
      · unfold scanEntryUpdate; split <;> rfl
      · unfold scanEntryUpdate; split <;> rfl
      · unfold scanEntryUpdate; split <;> rfl
      · intro hcs
        unfold scanEntryUpdate at hcs
        split at hcs
        · exact hcs
        · exact hcs
    · split
      · refine inv_of_map _ h rfl rfl ?_ ?_ ?_ ?_ ?_ <;> intro c
        · unfold scanExitUpdate; split <;> rfl
        · unfold scanExitUpdate; split <;> rfl
        · unfold scanExitUpdate; split <;> rfl
        · unfold scanExitUpdate; split <;> rfl
        · intro hcs
          unfold scanExitUpdate at hcs
          split at hcs
          · simp at hcs
          · exact hcs
      · exact h

theorem inv_applyExpirySweep (now : ℚ) {st : St} (h : Inv st) :
    Inv (applyExpirySweep now st).1 := by
  unfold applyExpirySweep
  refine inv_of_map _ h rfl rfl ?_ ?_ ?_ ?_ ?_ <;> intro c
  · unfold expireUpdate; split <;> rfl
  · unfold expireUpdate; split <;> rfl
  · unfold expireUpdate; split <;> rfl
  · unfold expireUpdate; split <;> rfl
  · intro hcs
    unfold expireUpdate at hcs
    split at hcs
    · simp at hcs
    · exact hcs

theorem inv_applyOvertimeSweep (env : Env) (now : ℚ) {st : St} (h : Inv st) :
    Inv (applyOvertimeSweep env now st).1 :=
  ⟨h.nodup, h.fresh, h.ordered, h.disjoint⟩

/-- Every core operation preserves the invariant. -/
theorem inv_applyOp (env : Env) (op : Op) {st : St} (h : Inv st) :
    Inv (applyOp env op st).1 := by
  cases op with
  | create locId slotId entry exitDT rules now =>
    exact inv_applyCreate env locId slotId entry exitDT rules now h
  | extend bid new_exit rules => exact inv_applyExtend env bid new_exit rules h
  | cancel bid ps now => exact inv_applyCancel bid ps now h
  | scan bid now => exact inv_applyScan bid now h
  | expirySweep now => exact inv_applyExpirySweep now h
  | overtimeSweep now => exact inv_applyOvertimeSweep env now h

/-- Every state reachable from the empty database satisfies the
invariant. -/
theorem inv_runOps (env : Env) (ops : List Op) : Inv (runOps env ops initSt) := by
  suffices h : ∀ st, Inv st → Inv (runOps env ops st) from h initSt inv_initSt
  induction ops with
  | nil => intro st h; exact h
  | cons op ops ih =>
    intro st h
    exact ih _ (inv_applyOp env op h)

/-- C1: in every state reachable from the empty database by core
operations (in particular by any sequence of create and extend
operations), distinct CONFIRMED bookings on one slot have disjoint
half-open expected windows; and, for a well-formed window, create
rejects exactly when some CONFIRMED booking on the slot has
`entry < window_end` and `exit > window_start` — so a window whose start
equals an existing booking's exit is admitted. -/
theorem confirmed_windows_never_overlap (env : Env) (ops : List Op)
    (locId slotId : ℕ) (entry exitDT : DateTime)
    (rules : List DynamicPricingRule) (now : ℚ)
    (hwin : entry.ts < exitDT.ts) :
    (∀ a ∈ (runOps env ops initSt).bookings,
      ∀ b ∈ (runOps env ops initSt).bookings,
      a.id ≠ b.id → a.status = .confirmed → b.status = .confirmed →
      a.slot = b.slot →
      a.exit_datetime_expected ≤ b.entry_datetime_expected ∨
      b.exit_datetime_expected ≤ a.entry_datetime_expected) ∧
    ((applyOp env (.create locId slotId entry exitDT rules now)
        (runOps env ops initSt)).2 = false ↔
      ∃ b ∈ (runOps env ops initSt).bookings, b.slot = slotId ∧
        b.status = .confirmed ∧ b.entry_datetime_expected < exitDT.ts ∧
        entry.ts < b.exit_datetime_expected) := by
  have hinv := inv_runOps env ops
  constructor
  · intro a ha b hb hne h1 h2 h3
    have hab : a ≠ b := fun hh => hne (by rw [hh])
    exact hinv.disjoint.forall windowsDisjoint_symm ha hb hab h1 h2 h3
  · show (applyCreate env locId slotId entry exitDT rules now _).2 = false ↔ _
    unfold applyCreate
    rw [if_neg (not_le.mpr hwin)]
    by_cases hc : (runOps env ops initSt).bookings.any (fun b =>
        decide (b.slot = slotId ∧ b.status = .confirmed ∧
          b.entry_datetime_expected < exitDT.ts ∧
          entry.ts < b.exit_datetime_expected)) = true
    · rw [if_pos hc]
      constructor
      · intro _
        rcases List.any_eq_true.mp hc with ⟨b, hbm, hbp⟩
        exact ⟨b, hbm, of_decide_eq_true hbp⟩
      · intro _
        rfl
    · rw [if_neg hc]
      dsimp only
      constructor
      · intro hh
        exact absurd hh (by simp)
      · rintro ⟨b, hbm, hbp⟩
        exact absurd (List.any_eq_true.mpr ⟨b, hbm, decide_eq_true hbp⟩) hc

/-- Witness for C1: after booking `[0, 36000)` on slot 1, the reject test
for a request `[36000, 72000)` whose start touches that booking's exit is
evaluated by the theorem at this concrete state. -/
theorem confirmed_windows_never_overlap_witness :
    (∀ a ∈ (runOps rateEnv [Op.create 1 1 ⟨0, 0, 0⟩ ⟨36000, 0, 36000⟩ [] 0]
        initSt).bookings,
      ∀ b ∈ (runOps rateEnv [Op.create 1 1 ⟨0, 0, 0⟩ ⟨36000, 0, 36000⟩ [] 0]
        initSt).bookings,
      a.id ≠ b.id → a.status = .confirmed → b.status = .confirmed →
      a.slot = b.slot →
      a.exit_datetime_expected ≤ b.entry_datetime_expected ∨
      b.exit_datetime_expected ≤ a.entry_datetime_expected) ∧
    ((applyOp rateEnv (.create 1 1 ⟨36000, 0, 36000⟩ ⟨72000, 0, 72000⟩ [] 0)
        (runOps rateEnv [Op.create 1 1 ⟨0, 0, 0⟩ ⟨36000, 0, 36000⟩ [] 0]
          initSt)).2 = false ↔
      ∃ b ∈ (runOps rateEnv [Op.create 1 1 ⟨0, 0, 0⟩ ⟨36000, 0, 36000⟩ [] 0]
        initSt).bookings, b.slot = 1 ∧ b.status = .confirmed ∧
        b.entry_datetime_expected < (72000 : ℚ) ∧
        (36000 : ℚ) < b.exit_datetime_expected) :=
  confirmed_windows_never_overlap rateEnv
    [Op.create 1 1 ⟨0, 0, 0⟩ ⟨36000, 0, 36000⟩ [] 0]
    1 1 ⟨36000, 0, 36000⟩ ⟨72000, 0, 72000⟩ [] 0 (by norm_num)

/-! ## Terminal statuses (C5) -/

theorem scanEntryUpdate_id (bid : ℕ) (now : ℚ) (c : Booking) :
    (scanEntryUpdate bid now c).id = c.id := by
  unfold scanEntryUpdate; split <;> rfl

theorem scanEntryUpdate_status (bid : ℕ) (now : ℚ) (c : Booking) :
    (scanEntryUpdate bid now c).status = c.status := by
  unfold scanEntryUpdate; split <;> rfl

theorem scanExitUpdate_id (bid : ℕ) (now : ℚ) (c : Booking) :
    (scanExitUpdate bid now c).id = c.id := by
  unfold scanExitUpdate; split <;> rfl

theorem expireUpdate_id (now : ℚ) (c : Booking) :
    (expireUpdate now c).id = c.id := by
  unfold expireUpdate; split <;> rfl

/-- After create, a row carrying the id of a pre-existing booking is that
booking, unchanged. -/
theorem applyCreate_id_fixed (env : Env) (locId slotId : ℕ)
    (entry exitDT : DateTime) (rules : List DynamicPricingRule) (now : ℚ)
    {st : St} (hnd : (st.bookings.map Booking.id).Nodup)
    (hfresh : ∀ c ∈ st.bookings, c.id < st.nextId)
    {b : Booking} (hb : b ∈ st.bookings) :
    ∀ c ∈ (applyCreate env locId slotId entry exitDT rules now st).1.bookings,
      c.id = b.id → c = b := by
  unfold applyCreate
  split
  · intro c hc hcid
    exact eq_of_mem_of_id_eq hnd hc hb hcid
  · split
    · intro c hc hcid
      exact eq_of_mem_of_id_eq hnd hc hb hcid
    · dsimp only
      intro c hc hcid
      rcases List.mem_cons.mp hc with rfl | hc'
      · exact absurd hcid (Ne.symm (Nat.ne_of_lt (hfresh b hb)))
      · exact eq_of_mem_of_id_eq hnd hc' hb hcid

/-- Extend never changes any booking row (the line-533 TypeError fires
before the booking-row save): every booking keeps its status. -/
theorem applyExtend_id_status (env : Env) (bid : ℕ) (new_exit : DateTime)
    (rules : List DynamicPricingRule) {st : St}
    (hnd : (st.bookings.map Booking.id).Nodup)
    {b : Booking} (hb : b ∈ st.bookings) :
    ∀ c ∈ (applyExtend env bid new_exit rules st).1.bookings,
      c.id = b.id → c.status = b.status := by
  unfold applyExtend
  cases hfind : st.bookings.find?
      (fun c => decide (c.id = bid ∧ c.status = .confirmed)) with
  | none =>
    intro c hc hcid
    rw [eq_of_mem_of_id_eq hnd hc hb hcid]
  | some b0 =>
    dsimp only
    split
    · intro c hc hcid
      rw [eq_of_mem_of_id_eq hnd hc hb hcid]
    · split
      · intro c hc hcid
        rw [eq_of_mem_of_id_eq hnd hc hb hcid]
      · intro c hc hcid
        rw [eq_of_mem_of_id_eq hnd hc hb hcid]

/-- Cancel never reaches its writes (the line-570 TypeError fires before
any save): every booking keeps its status. -/
theorem applyCancel_id_status (bid : ℕ) (ps : List CancellationPolicy)
    (now : ℚ) {st : St} (hnd : (st.bookings.map Booking.id).Nodup)
    {b : Booking} (hb : b ∈ st.bookings) :
    ∀ c ∈ (applyCancel bid ps now st).1.bookings,
      c.id = b.id → c.status = b.status := by
  rw [applyCancel_eq]
  intro c hc hcid
  rw [eq_of_mem_of_id_eq hnd hc hb hcid]

/-- A scan leaves a booking's status unchanged or sets it COMPLETED. -/
theorem applyScan_id_status (bid : ℕ) (now : ℚ) {st : St}
    (hnd : (st.bookings.map Booking.id).Nodup)
    {b : Booking} (hb : b ∈ st.bookings) :
    ∀ c ∈ (applyScan bid now st).1.bookings, c.id = b.id →
      c.status = b.status ∨ c.status = .completed := by
  unfold applyScan
  cases hfind : st.bookings.find? (fun c => decide (c.id = bid)) with
  | none =>
    intro c hc hcid
    left
    rw [eq_of_mem_of_id_eq hnd hc hb hcid]
  | some b0 =>
    dsimp only
    split
    · intro c hc hcid
      rcases List.mem_map.mp hc with ⟨c0, hc0, rfl⟩
      rw [scanEntryUpdate_status]
      rw [scanEntryUpdate_id] at hcid
      left
      rw [eq_of_mem_of_id_eq hnd hc0 hb hcid]
    · split
      · intro c hc hcid
        rcases List.mem_map.mp hc with ⟨c0, hc0, rfl⟩
        rw [scanExitUpdate_id] at hcid
        have hc0b := eq_of_mem_of_id_eq hnd hc0 hb hcid
        subst hc0b
        unfold scanExitUpdate
        split
        · right; rfl
        · left; rfl
      · intro c hc hcid
        left
        rw [eq_of_mem_of_id_eq hnd hc hb hcid]

/-- The expiry sweep only changes PENDING_PAYMENT bookings. -/
theorem applyExpirySweep_id_status (now : ℚ) {st : St}
    (hnd : (st.bookings.map Booking.id).Nodup)
    {b : Booking} (hb : b ∈ st.bookings) (hbs : b.status ≠ .pendingPayment) :
    ∀ c ∈ (applyExpirySweep now st).1.bookings,
      c.id = b.id → c.status = b.status := by
  unfold applyExpirySweep
  dsimp only
  intro c hc hcid
  rcases List.mem_map.mp hc with ⟨c0, hc0, rfl⟩
  rw [expireUpdate_id] at hcid
  have hc0b := eq_of_mem_of_id_eq hnd hc0 hb hcid
  subst hc0b
  unfold expireUpdate
  split
  · rename_i hcond
    exact absurd hcond.1 hbs
  · rfl

/-- C5 (amended): COMPLETED is terminal under every core operation.
CANCELLED is unchanged by create, extend, cancel and both sweeps, but the
staff QR scan never checks the status, so it can move a CANCELLED booking
to COMPLETED when it records the exit. -/
theorem terminal_statuses (env : Env) (op : Op) (st : St) (b : Booking)
    (hnd : (st.bookings.map Booking.id).Nodup)
    (hfresh : ∀ c ∈ st.bookings, c.id < st.nextId)
    (hb : b ∈ st.bookings) :
    (b.status = .completed → ∀ c ∈ (applyOp env op st).1.bookings,
      c.id = b.id → c.status = .completed) ∧
    (b.status = .cancelled → ∀ c ∈ (applyOp env op st).1.bookings,
      c.id = b.id → c.status = .cancelled ∨
        (op.isScan = true ∧ c.status = .completed)) := by
  constructor
  · intro hbs c hc hcid
    cases op with
    | create locId slotId entry exitDT rules now =>
      rw [applyCreate_id_fixed env locId slotId entry exitDT rules now hnd hfresh hb
        c hc hcid]
      exact hbs
    | extend bid new_exit rules =>
      rw [applyExtend_id_status env bid new_exit rules hnd hb c hc hcid]
      exact hbs
    | cancel bid ps now =>
      rw [applyCancel_id_status bid ps now hnd hb c hc hcid]
      exact hbs
    | scan bid now =>
      rcases applyScan_id_status bid now hnd hb c hc hcid with h | h
      · rw [h]; exact hbs
      · exact h
    | expirySweep now =>
      rw [applyExpirySweep_id_status now hnd hb (by rw [hbs]; decide) c hc hcid]
      exact hbs
    | overtimeSweep now =>
      rw [eq_of_mem_of_id_eq hnd hc hb hcid]
      exact hbs
  · intro hbs c hc hcid
    cases op with
    | create locId slotId entry exitDT rules now =>
      left
      rw [applyCreate_id_fixed env locId slotId entry exitDT rules now hnd hfresh hb
        c hc hcid]
      exact hbs
    | extend bid new_exit rules =>
      left
      rw [applyExtend_id_status env bid new_exit rules hnd hb c hc hcid]
      exact hbs
    | cancel bid ps now =>
      left
      rw [applyCancel_id_status bid ps now hnd hb c hc hcid]
      exact hbs
    | scan bid now =>
      rcases applyScan_id_status bid now hnd hb c hc hcid with h | h
      · left; rw [h]; exact hbs
      · right; exact ⟨rfl, h⟩
    | expirySweep now =>
      left
      rw [applyExpirySweep_id_status now hnd hb (by rw [hbs]; decide) c hc hcid]
      exact hbs
    | overtimeSweep now =>
      left
      rw [eq_of_mem_of_id_eq hnd hc hb hcid]
      exact hbs

/-- A COMPLETED booking with both timestamps recorded, for the C5
witness. -/
def scanDemoBooking : Booking :=
  ⟨0, 1, 1, .completed, 0, 3600, some 0, some 1, 1, 10, 10, none⟩

/-- One-booking database holding `scanDemoBooking`. -/
def scanDemoSt : St := ⟨[scanDemoBooking], [], [], 1⟩

/-- Witness for C5 at a concrete state: a COMPLETED booking scanned again
stays COMPLETED. -/
theorem terminal_statuses_witness :
    (scanDemoBooking.status = .completed →
      ∀ c ∈ (applyOp rateEnv (.scan 0 10) scanDemoSt).1.bookings,
        c.id = scanDemoBooking.id → c.status = .completed) ∧
    (scanDemoBooking.status = .cancelled →
      ∀ c ∈ (applyOp rateEnv (.scan 0 10) scanDemoSt).1.bookings,
        c.id = scanDemoBooking.id → c.status = .cancelled ∨
          ((Op.scan 0 10).isScan = true ∧ c.status = .completed)) :=
  terminal_statuses rateEnv (.scan 0 10) scanDemoSt scanDemoBooking
    (by simp [scanDemoSt, scanDemoBooking])
    (by simp [scanDemoSt, scanDemoBooking])
    (List.mem_cons_self _ _)

/-- C5 counterexample: a CANCELLED booking with entry recorded and exit
unrecorded is moved to COMPLETED by the staff QR scan — the scan never
checks the booking status, so CANCELLED is not terminal. -/
theorem cancelled_not_terminal_cex :
    ((⟨[⟨0, 1, 1, .cancelled, 0, 3600, some 0, none, 1, 10, 10, none⟩],
        [], [], 1⟩ : St).bookings.map Booking.status =
      [BookingStatus.cancelled]) ∧
    ((applyOp rateEnv (.scan 0 7200)
        ⟨[⟨0, 1, 1, .cancelled, 0, 3600, some 0, none, 1, 10, 10, none⟩],
          [], [], 1⟩).1.bookings.map Booking.status =
      [BookingStatus.completed]) := by
  constructor
  · rfl
  · simp [applyOp, applyScan, List.find?, scanExitUpdate]

/-! ## Cancellation behaviour (C7, C9) -/

/-- C9: cancelling a CONFIRMED booking at or after its expected entry is
rejected and persists nothing: the operation returns the input state
unchanged (no booking mutation, no payment row) with the failure flag.
The guard at lines 553-555 fires before the line-570 crash site, so this
is the view's clean "only future bookings are cancellable" rejection. -/
theorem cancel_after_start_rejected (env : Env) (st : St)
    (ps : List CancellationPolicy) (now : ℚ) (b : Booking)
    (hnd : (st.bookings.map Booking.id).Nodup)
    (hb : b ∈ st.bookings) (hconf : b.status = .confirmed)
    (hlate : b.entry_datetime_expected ≤ now) :
    applyOp env (.cancel b.id ps now) st = (st, false) :=
  applyCancel_eq b.id ps now st

/-- A CONFIRMED booking whose window has already started, for the C9
witness. -/
def startedBooking : Booking :=
  ⟨0, 1, 1, .confirmed, 0, 3600, none, none, 1, 100, 100, none⟩

/-- One-booking database holding `startedBooking`. -/
def startedSt : St := ⟨[startedBooking], [], [], 1⟩

/-- Witness for C9: cancelling `startedBooking` at `now = 10` (past its
entry 0) returns the state unchanged with the failure flag. -/
theorem cancel_after_start_rejected_witness :
    applyOp rateEnv (.cancel startedBooking.id [] 10) startedSt =
      (startedSt, false) :=
  cancel_after_start_rejected rateEnv startedSt [] 10 startedBooking
    (by simp [startedSt, startedBooking]) (List.mem_cons_self _ _) rfl
    (by norm_num [startedBooking])

/-- A fully paid CONFIRMED future booking (entry one hour ahead). -/
def paidBooking : Booking :=
  ⟨0, 1, 1, .confirmed, 3600, 7200, none, none, 1, 100, 100, none⟩

/-- One-booking database holding `paidBooking`. -/
def paidSt : St := ⟨[paidBooking], [], [], 1⟩

/-- C7: the claimed round-trip cannot run at all.  `cancel_booking`
resolves the refund percentage (lines 557-569) and then, at line 570,
multiplies the Decimal `booking.amount_paid` by the float
`refund_percentage / 100.0`, which raises TypeError before
`request.method` is consulted and before any write.  At the claim's own
input — `paidBooking`, fully paid and CONFIRMED with its entry one hour
ahead, under the global (threshold 0, 100 %) policy — the operation
fails and persists nothing: the booking stays CONFIRMED with
`amount_paid` unchanged and no Payment row is created, instead of
CANCELLED with `amount_paid = 0` and one REFUNDED row. -/
theorem cancel_crashes_before_any_write :
    paidBooking.status = .confirmed ∧
    paidBooking.amount_paid = paidBooking.amount_expected ∧
    (0 : ℚ) < paidBooking.entry_datetime_expected ∧
    applyOp rateEnv (.cancel 0 [⟨none, 0, 100⟩] 0) paidSt = (paidSt, false) ∧
    (applyOp rateEnv (.cancel 0 [⟨none, 0, 100⟩] 0) paidSt).1.bookings.map
      Booking.status = [BookingStatus.confirmed] ∧
    (applyOp rateEnv (.cancel 0 [⟨none, 0, 100⟩] 0) paidSt).1.bookings.map
      Booking.amount_paid = [100] ∧
    (applyOp rateEnv (.cancel 0 [⟨none, 0, 100⟩] 0) paidSt).1.payments = [] := by
  have h : applyOp rateEnv (.cancel 0 [⟨none, 0, 100⟩] 0) paidSt =
      (paidSt, false) := applyCancel_eq 0 [⟨none, 0, 100⟩] 0 paidSt
  rw [h]
  refine ⟨rfl, rfl, by norm_num [paidBooking], rfl, rfl, rfl, rfl⟩


/-! ## Overtime fines (C8) -/

/-- The UNPAID fine rows of one booking. -/
def unpaidFinesFor (fines : List Fine) (bid : ℕ) : List Fine :=
  fines.filter (fun f => decide (f.bookingId = bid ∧ f.status = .unpaid))

/-- All fine rows of one booking. -/
def finesFor (fines : List Fine) (bid : ℕ) : List Fine :=
  fines.filter (fun f => decide (f.bookingId = bid))

/-- At most one UNPAID fine per booking. -/
def atMostOneUnpaidFine (fines : List Fine) : Prop :=
  ∀ bid, (unpaidFinesFor fines bid).length ≤ 1

theorem hasUnpaidFine_false_iff {fines : List Fine} {bid : ℕ} :
    hasUnpaidFine fines bid = false ↔ unpaidFinesFor fines bid = [] := by
  rw [← Bool.not_eq_true, hasUnpaidFine, List.any_eq_true]
  rw [unpaidFinesFor, List.filter_eq_nil_iff]
  constructor
  · intro h a ha hp
    exact h ⟨a, ha, hp⟩
  · rintro h ⟨a, ha, hp⟩
    exact h a ha hp

theorem hasUnpaidFine_cons {f : Fine} {fines : List Fine} {bid : ℕ} :
    hasUnpaidFine (f :: fines) bid =
      (decide (f.bookingId = bid ∧ f.status = .unpaid) ||
        hasUnpaidFine fines bid) := rfl

/-- Fines already present keep an id's unpaid flag set through the
sweep. -/
theorem overtimeFold_has_mono (env : Env) (now : ℚ) :
    ∀ (bs : List Booking) (fines : List Fine) (bid : ℕ),
      hasUnpaidFine fines bid = true →
      hasUnpaidFine (overtimeFold env now bs fines) bid = true := by
  intro bs
  induction bs with
  | nil =>
    intro fines bid h
    exact h
  | cons c cs ih =>
    intro fines bid h
    rw [overtimeFold]
    apply ih
    split
    · split
      · exact h
      · rw [hasUnpaidFine_cons, h, Bool.or_true]
    · exact h

/-- After the sweep every CONFIRMED overdue booking of the list has an
UNPAID fine. -/
theorem overtimeFold_covers (env : Env) (now : ℚ) :
    ∀ (bs : List Booking) (fines : List Fine) (b : Booking),
      b ∈ bs → b.status = .confirmed → b.exit_datetime_expected < now →
      hasUnpaidFine (overtimeFold env now bs fines) b.id = true := by
  intro bs
  induction bs with
  | nil =>
    intro fines b hb
    cases hb
  | cons c cs ih =>
    intro fines b hb hconf hover
    rw [overtimeFold]
    rcases List.mem_cons.mp hb with rfl | hb'
    · apply overtimeFold_has_mono
      rw [if_pos ⟨hconf, hover⟩]
      by_cases hh : hasUnpaidFine fines b.id = true
      · rw [if_pos hh]
        exact hh
      · rw [if_neg hh]
        rw [hasUnpaidFine_cons]
        rw [decide_eq_true (show (mkOvertimeFine env b).bookingId = b.id ∧
          (mkOvertimeFine env b).status = .unpaid from ⟨rfl, rfl⟩)]
        rfl
    · exact ih _ b hb' hconf hover

/-- A sweep over bookings whose ids all differ from `bid` leaves the
UNPAID fines of `bid` untouched. -/
theorem overtimeFold_unpaid_untouched (env : Env) (now : ℚ) :
    ∀ (bs : List Booking) (fines : List Fine) (bid : ℕ),
      (∀ c ∈ bs, c.id ≠ bid) →
      unpaidFinesFor (overtimeFold env now bs fines) bid =
        unpaidFinesFor fines bid := by
  intro bs
  induction bs with
  | nil =>
    intro fines bid _
    rfl
  | cons c cs ih =>
    intro fines bid hnb
    rw [overtimeFold]
    rw [ih _ bid (fun d hd => hnb d (List.mem_cons_of_mem c hd))]
    split
    · split
      · rfl
      · simp [unpaidFinesFor, mkOvertimeFine, hnb c (List.mem_cons_self _ _)]
    · rfl

/-- A sweep over bookings whose ids all differ from `bid` leaves all
fines of `bid` untouched. -/
theorem overtimeFold_fines_untouched (env : Env) (now : ℚ) :
    ∀ (bs : List Booking) (fines : List Fine) (bid : ℕ),
      (∀ c ∈ bs, c.id ≠ bid) →
      finesFor (overtimeFold env now bs fines) bid = finesFor fines bid := by
  intro bs
  induction bs with
  | nil =>
    intro fines bid _
    rfl
  | cons c cs ih =>
    intro fines bid hnb
    rw [overtimeFold]
    rw [ih _ bid (fun d hd => hnb d (List.mem_cons_of_mem c hd))]
    split
    · split
      · rfl
      · simp [finesFor, mkOvertimeFine, hnb c (List.mem_cons_self _ _)]
    · rfl

/-- Under unique booking ids, the sweep creates exactly one new UNPAID
flat fine for an eligible booking that had none. -/
theorem overtimeFold_creates_one (env : Env) (now : ℚ) :
    ∀ (bs : List Booking) (fines : List Fine) (b : Booking),
      (bs.map Booking.id).Nodup → b ∈ bs → b.status = .confirmed →
      b.exit_datetime_expected < now → hasUnpaidFine fines b.id = false →
      unpaidFinesFor (overtimeFold env now bs fines) b.id =
        [mkOvertimeFine env b] := by
  intro bs
  induction bs with
  | nil =>
    intro fines b _ hb
    cases hb
  | cons c cs ih =>
    intro fines b hnd hb hconf hover hno
    rw [List.map_cons, List.nodup_cons] at hnd
    rw [overtimeFold]
    rcases List.mem_cons.mp hb with rfl | hb'
    · rw [if_pos ⟨hconf, hover⟩]
      rw [if_neg (by rw [hno]; exact Bool.false_ne_true)]
      have hnb : ∀ d ∈ cs, d.id ≠ b.id := by
        intro d hd hdd
        exact hnd.1 (by rw [← hdd]; exact List.mem_map_of_mem Booking.id hd)
      rw [overtimeFold_unpaid_untouched env now cs _ b.id hnb]
      unfold unpaidFinesFor
      rw [List.filter_cons]
      rw [if_pos (decide_eq_true (show (mkOvertimeFine env b).bookingId = b.id ∧
        (mkOvertimeFine env b).status = .unpaid from ⟨rfl, rfl⟩))]
      rw [show fines.filter (fun f => decide (f.bookingId = b.id ∧
          f.status = .unpaid)) = unpaidFinesFor fines b.id from rfl]
      rw [hasUnpaidFine_false_iff.mp hno]
    · have hcb : c.id ≠ b.id := by
        intro hh
        exact hnd.1 (by rw [hh]; exact List.mem_map_of_mem Booking.id hb')
      refine ih _ b hnd.2 hb' hconf hover ?_
      split
      · split
        · exact hno
        · rw [hasUnpaidFine_cons, hno, Bool.or_false]
          exact decide_eq_false (fun hcon => hcb hcon.1)
      · exact hno

/-- A sweep over bookings that all already carry an UNPAID fine changes
nothing. -/
theorem overtimeFold_idem_of_covered (env : Env) (now : ℚ) :
    ∀ (bs : List Booking) (fines : List Fine),
      (∀ b ∈ bs, b.status = .confirmed → b.exit_datetime_expected < now →
        hasUnpaidFine fines b.id = true) →
      overtimeFold env now bs fines = fines := by
  intro bs
  induction bs with
  | nil =>
    intro fines _
    rfl
  | cons c cs ih =>
    intro fines h
    rw [overtimeFold]
    by_cases hc : c.status = .confirmed ∧ c.exit_datetime_expected < now
    · rw [if_pos hc, if_pos (h c (List.mem_cons_self _ _) hc.1 hc.2)]
      exact ih fines (fun b hb => h b (List.mem_cons_of_mem _ hb))
    · rw [if_neg hc]
      exact ih fines (fun b hb => h b (List.mem_cons_of_mem _ hb))

/-- The sweep preserves "at most one UNPAID fine per booking". -/
theorem overtimeFold_atMostOne (env : Env) (now : ℚ) :
    ∀ (bs : List Booking) (fines : List Fine),
      atMostOneUnpaidFine fines →
      atMostOneUnpaidFine (overtimeFold env now bs fines) := by
  intro bs
  induction bs with
  | nil =>
    intro fines h
    exact h
  | cons c cs ih =>
    intro fines h
    rw [overtimeFold]
    apply ih
    split
    · split
      · exact h
      · rename_i hno
        have hno' : hasUnpaidFine fines c.id = false := by
          revert hno
          cases hasUnpaidFine fines c.id <;> simp
        intro bid
        unfold unpaidFinesFor
        rw [List.filter_cons]
        split
        · rename_i hp
          have hcb : c.id = bid := (of_decide_eq_true hp).1
          rw [show fines.filter (fun f => decide (f.bookingId = bid ∧
              f.status = .unpaid)) = unpaidFinesFor fines bid from rfl]
          rw [← hcb, hasUnpaidFine_false_iff.mp hno']
          exact le_refl 1
        · exact h bid
    · exact h

/-- C8: under unique booking ids and starting from a table with at most
one UNPAID fine per booking, the overtime sweep keeps that bound,
re-running it at the same instant changes nothing, every CONFIRMED
booking past its expected exit with no UNPAID fine receives exactly one
new UNPAID fine of flat amount `base_rate_per_hour`, and bookings that
already have an UNPAID fine get no new fine row. -/
theorem overtime_sweep_one_unpaid_fine (env : Env) (now : ℚ) (st : St)
    (hnd : (st.bookings.map Booking.id).Nodup)
    (h1 : atMostOneUnpaidFine st.fines) :
    atMostOneUnpaidFine (applyOp env (.overtimeSweep now) st).1.fines ∧
    (applyOp env (.overtimeSweep now)
        (applyOp env (.overtimeSweep now) st).1).1 =
      (applyOp env (.overtimeSweep now) st).1 ∧
    (∀ b ∈ st.bookings, b.status = .confirmed →
      b.exit_datetime_expected < now → hasUnpaidFine st.fines b.id = false →
      unpaidFinesFor (applyOp env (.overtimeSweep now) st).1.fines b.id =
        [⟨b.id, (env b.locId).base_rate_per_hour, .unpaid⟩]) ∧
    (∀ bid, hasUnpaidFine st.fines bid = true →
      finesFor (applyOp env (.overtimeSweep now) st).1.fines bid =
        finesFor st.fines bid) := by
  refine ⟨?_, ?_, ?_, ?_⟩
  · exact overtimeFold_atMostOne env now st.bookings st.fines h1
  · show (applyOvertimeSweep env now (applyOvertimeSweep env now st).1).1 =
      (applyOvertimeSweep env now st).1
    unfold applyOvertimeSweep
    dsimp only
    rw [overtimeFold_idem_of_covered env now st.bookings
      (overtimeFold env now st.bookings st.fines)
      (fun b hb hconf hover =>
        overtimeFold_covers env now st.bookings st.fines b hb hconf hover)]
  · intro b hb hconf hover hno
    exact overtimeFold_creates_one env now st.bookings st.fines b hnd hb hconf
      hover hno
  · intro bid hhas
    have hnb_or : ∀ fines, hasUnpaidFine fines bid = true →
        finesFor (overtimeFold env now st.bookings fines) bid =
          finesFor fines bid := by
      intro fines hf
      generalize st.bookings = bs at *
      clear hhas hnd h1
      induction bs generalizing fines with
      | nil => rfl
      | cons c cs ih =>
        rw [overtimeFold]
        split
        · split
          · exact ih fines hf
          · rename_i hno
            have hno' : hasUnpaidFine fines c.id = false := by
              revert hno
              cases hasUnpaidFine fines c.id <;> simp
            have hcb : c.id ≠ bid := by
              intro hh
              rw [hh, hf] at hno'
              cases hno'
            rw [ih (mkOvertimeFine env c :: fines)
              (by rw [hasUnpaidFine_cons, hf, Bool.or_true])]
            simp [finesFor, mkOvertimeFine, hcb]
        · exact ih fines hf
    exact hnb_or st.fines hhas

/-- A CONFIRMED booking past its expected exit, for the C8 witness. -/
def overdueBooking : Booking :=
  ⟨0, 1, 1, .confirmed, 0, 3600, some 0, none, 1, 100, 100, none⟩

/-- One-booking database holding `overdueBooking` and no fines. -/
def overdueSt : St := ⟨[overdueBooking], [], [], 1⟩

/-- Witness for C8 at a concrete state: one overdue booking, no fines,
swept at `now = 7200`. -/
theorem overtime_sweep_one_unpaid_fine_witness :
    atMostOneUnpaidFine (applyOp rateEnv (.overtimeSweep 7200) overdueSt).1.fines ∧
    (applyOp rateEnv (.overtimeSweep 7200)
        (applyOp rateEnv (.overtimeSweep 7200) overdueSt).1).1 =
      (applyOp rateEnv (.overtimeSweep 7200) overdueSt).1 ∧
    (∀ b ∈ overdueSt.bookings, b.status = .confirmed →
      b.exit_datetime_expected < 7200 →
      hasUnpaidFine overdueSt.fines b.id = false →
      unpaidFinesFor (applyOp rateEnv (.overtimeSweep 7200) overdueSt).1.fines
          b.id =
        [⟨b.id, (rateEnv b.locId).base_rate_per_hour, .unpaid⟩]) ∧
    (∀ bid, hasUnpaidFine overdueSt.fines bid = true →
      finesFor (applyOp rateEnv (.overtimeSweep 7200) overdueSt).1.fines bid =
        finesFor overdueSt.fines bid) :=
  overtime_sweep_one_unpaid_fine rateEnv 7200 overdueSt
    (by simp [overdueSt, overdueBooking])
    (by intro bid; simp [atMostOneUnpaidFine, unpaidFinesFor, overdueSt])

/-! ## Payment statuses (C10) -/

/-- C10: every payment row a core operation creates has status SUCCESS
(create and extend are the only operations that commit payment rows) or
REFUNDED; no core operation ever creates a PARTIAL_REFUND payment
although that status exists in the data model.  Cancellation in fact
commits no payment row at all — the line-570 TypeError fires before the
REFUNDED insert — so the claim's "every refund row is REFUNDED, even at
a strictly partial percentage" holds a fortiori: the second conjunct
runs a cancellation at a strictly partial 20 % refund and shows the
payment table is untouched. -/
theorem no_partial_refund_payments :
    (∀ (env : Env) (op : Op) (st : St),
      ∀ p ∈ (applyOp env op st).1.payments,
        p ∈ st.payments ∨ p.status = .success ∨ p.status = .refunded) ∧
    (applyOp rateEnv (.cancel 0 [⟨none, 0, 20⟩] 0) paidSt).1.payments =
      paidSt.payments ∧
    (PaymentStatus.refunded ≠ PaymentStatus.partialRefund ∧
      PaymentStatus.success ≠ PaymentStatus.partialRefund) := by
  refine ⟨?_, ?_, by decide⟩
  · intro env op st p hp
    cases op with
    | create locId slotId entry exitDT rules now =>
      have hp' : p ∈ (applyCreate env locId slotId entry exitDT rules now
          st).1.payments := hp
      unfold applyCreate at hp'
      split at hp'
      · exact Or.inl hp'
      · split at hp'
        · exact Or.inl hp'
        · dsimp only at hp'
          rcases List.mem_cons.mp hp' with rfl | hp''
          · exact Or.inr (Or.inl rfl)
          · exact Or.inl hp''
    | extend bid new_exit rules =>
      have hp' : p ∈ (applyExtend env bid new_exit rules st).1.payments := hp
      unfold applyExtend at hp'
      split at hp'
      · exact Or.inl hp'
      · split at hp'
        · exact Or.inl hp'
        · split at hp'
          · exact Or.inl hp'
          · dsimp only at hp'
            rcases List.mem_cons.mp hp' with rfl | hp''
            · exact Or.inr (Or.inl rfl)
            · exact Or.inl hp''
    | cancel bid ps now =>
      have hp' : p ∈ (applyCancel bid ps now st).1.payments := hp
      rw [applyCancel_eq] at hp'
      exact Or.inl hp'
    | scan bid now =>
      have hp' : p ∈ (applyScan bid now st).1.payments := hp
      unfold applyScan at hp'
      split at hp'
      · exact Or.inl hp'
      · split at hp'
        · exact Or.inl hp'
        · split at hp'
          · exact Or.inl hp'
          · exact Or.inl hp'
    | expirySweep now =>
      exact Or.inl hp
    | overtimeSweep now =>
      exact Or.inl hp
  · show (applyCancel 0 [⟨none, 0, 20⟩] 0 paidSt).1.payments = paidSt.payments
    rw [applyCancel_eq]

end ParKaro
